import Mathlib

/-!
Verification of the privilege-ring manager of `pkg/capabilities/capabilities.go`.

The Go file is embedded shallowly: the `Capabilities` struct becomes a Lean
structure, the `all` map becomes a function together with the count of seeded
keys, OS capability state becomes an explicit `OSState` record, and each
fallible OS transaction (`getProc` / `setProc`) is driven by an explicit
outcome parameter.  A Go `panic` (write into a nil inner map) is modelled by
`Option`, with `none` standing for the panic.  Callbacks are opaque: a
callback is represented by the result it returns and is assumed not to mutate
the manager's state.
-/

namespace TraceeCaps

/-- Capability values (`cap.Value`): natural numbers below the platform
capability count (`cap.MaxBits()`). -/
abbrev CapValue := Nat

/-- Value of `cap.IPC_LOCK` in the libcap enumeration. -/
def IPC_LOCK : CapValue := 14

/-- Value of `cap.SYS_ADMIN` in the libcap enumeration. -/
def SYS_ADMIN : CapValue := 21

/-- Value of `cap.SYS_RESOURCE` in the libcap enumeration. -/
def SYS_RESOURCE : CapValue := 24

/-- Value of `cap.PERFMON` in the libcap enumeration. -/
def PERFMON : CapValue := 38

/-- Value of `cap.BPF` in the libcap enumeration. -/
def BPF : CapValue := 39

/-- The four protection rings (`ringType` in the source). -/
inductive RingType where
  | Privileged
  | Required
  | Requested
  | Unprivileged
deriving DecidableEq, Repr, Fintype

/-- Errors produced by the error functions at the bottom of the source file,
plus `external n`, standing for an arbitrary error value a callback returns. -/
inductive GoErr where
  | couldNotFindCapability (s : String)
  | couldNotReadPerfEventParanoid
  | couldNotSetProc
  | couldNotGetProc
  | alreadyInit
  | external (n : Nat)
deriving DecidableEq, Repr

/-- The `Capabilities` struct.  `tbl` together with `tblDomain` models the
`all` map: inner maps exist exactly for keys `0 .. tblDomain - 1` (seeded by
`initialize`); reading an entry of a missing/nil inner map yields `false`,
writing to one panics.  `inited` is the Go field `initialized`.  The `have`
snapshot and the mutex are modelled inline at their use sites. -/
structure Capabilities where
  tblDomain : Nat
  tbl : CapValue → RingType → Bool
  bypass : Bool
  inited : Bool

/-- The zero value `Capabilities{}` (nil `all` map, all flags false). -/
def emptyCaps : Capabilities :=
  { tblDomain := 0, tbl := fun _ _ => false, bypass := false, inited := false }

/-- Write one entry of the membership table (`c.all[v][t] = b`). -/
def updateTbl (tbl : CapValue → RingType → Bool) (v : CapValue) (t : RingType)
    (b : Bool) : CapValue → RingType → Bool :=
  fun v' t' => if v' = v ∧ t' = t then b else tbl v' t'

/-- The loop body of `Capabilities.set`: `c.all[v][t] = true` for each given
value.  A value outside the seeded domain hits a nil inner map and the
assignment panics (`none`). -/
def setList (t : RingType) : Capabilities → List CapValue → Option Capabilities
  | c, [] => some c
  | c, v :: rest =>
    if v < c.tblDomain then
      setList t { c with tbl := updateTbl c.tbl v t true } rest
    else
      none

/-- The loop body of `Capabilities.unset`: `c.all[v][t] = false` for each
given value; writes to a nil inner map panic (`none`) just as in `set`. -/
def unsetList (t : RingType) : Capabilities → List CapValue → Option Capabilities
  | c, [] => some c
  | c, v :: rest =>
    if v < c.tblDomain then
      unsetList t { c with tbl := updateTbl c.tbl v t false } rest
    else
      none

/-- `Capabilities.Require`: bypass short-circuits with a nil error, otherwise
`set(Required, values...)` under the lock.  `set` always returns a nil error,
so the only outcomes are the updated manager or a panic (`none`). -/
def Capabilities.Require (c : Capabilities) (values : List CapValue) :
    Option Capabilities :=
  if c.bypass then some c else setList RingType.Required c values

/-- `Capabilities.Unrequire`: bypass short-circuits with a nil error,
otherwise `unset(Required, values...)` under the lock. -/
def Capabilities.Unrequire (c : Capabilities) (values : List CapValue) :
    Option Capabilities :=
  if c.bypass then some c else unsetList RingType.Required c values

/-- OS-visible capability state of the process: the committed effective set,
the permitted set, and the bounding set. -/
structure OSState where
  effective : CapValue → Bool
  permitted : CapValue → Bool
  bounding : CapValue → Bool

/-- Outcome of the OS transaction inside one `Capabilities.apply` call:
either both `getProc` and `setProc` succeed, or one of them fails. -/
inductive ApplyOutcome where
  | ok
  | getFail
  | setFail
deriving DecidableEq, Repr

/-- `Capabilities.apply`: `getProc` a snapshot, set each table key's
Effective flag to its membership in ring `t`, then `setProc`.  A failed call
leaves the committed OS state unchanged: `getProc` fails before any write,
`SetFlag` mutates only the in-memory snapshot (and never fails on a seeded
key), and a failed `setProc` commits nothing. -/
def applyRing (c : Capabilities) (os : OSState) (t : RingType)
    (o : ApplyOutcome) : Except GoErr OSState :=
  match o with
  | ApplyOutcome.getFail => Except.error GoErr.couldNotGetProc
  | ApplyOutcome.setFail => Except.error GoErr.couldNotSetProc
  | ApplyOutcome.ok =>
      Except.ok { os with
        effective := fun v => if v < c.tblDomain then c.tbl v t else os.effective v }

/-- Observable events of a run-in-ring call, in order: apply attempts on the
OS state and the callback invocation. -/
inductive Event where
  | applyOk (t : RingType)
  | applyFail (t : RingType)
  | cbRan
deriving DecidableEq, Repr

/-- Result of a run-in-ring call: manager state, OS state, the returned
error (if any), and the event trace. -/
structure RunRes where
  caps : Capabilities
  os : OSState
  ret : Option GoErr
  trace : List Event

/-- `Capabilities.Privileged`: apply ring0, run the callback, apply ring3,
return the callback's error.  `o1`, `o2` drive the two OS transactions;
`cbRes` is the callback's result. -/
def PrivilegedRun (c : Capabilities) (os : OSState) (o1 o2 : ApplyOutcome)
    (cbRes : Option GoErr) : RunRes :=
  if c.bypass then
    { caps := c, os := os, ret := cbRes, trace := [Event.cbRan] }
  else
    match applyRing c os RingType.Privileged o1 with
    | Except.error e =>
      { caps := c, os := os, ret := some e
        trace := [Event.applyFail RingType.Privileged] }
    | Except.ok os1 =>
      match applyRing c os1 RingType.Unprivileged o2 with
      | Except.error e =>
        { caps := c, os := os1, ret := some e
          trace := [Event.applyOk RingType.Privileged, Event.cbRan,
                    Event.applyFail RingType.Unprivileged] }
      | Except.ok os2 =>
        { caps := c, os := os2, ret := cbRes
          trace := [Event.applyOk RingType.Privileged, Event.cbRan,
                    Event.applyOk RingType.Unprivileged] }

/-- `Capabilities.Required`: same shape as `Privileged` with ring1 applied
for the callback. -/
def RequiredRun (c : Capabilities) (os : OSState) (o1 o2 : ApplyOutcome)
    (cbRes : Option GoErr) : RunRes :=
  if c.bypass then
    { caps := c, os := os, ret := cbRes, trace := [Event.cbRan] }
  else
    match applyRing c os RingType.Required o1 with
    | Except.error e =>
      { caps := c, os := os, ret := some e
        trace := [Event.applyFail RingType.Required] }
    | Except.ok os1 =>
      match applyRing c os1 RingType.Unprivileged o2 with
      | Except.error e =>
        { caps := c, os := os1, ret := some e
          trace := [Event.applyOk RingType.Required, Event.cbRan,
                    Event.applyFail RingType.Unprivileged] }
      | Except.ok os2 =>
        { caps := c, os := os2, ret := cbRes
          trace := [Event.applyOk RingType.Required, Event.cbRan,
                    Event.applyOk RingType.Unprivileged] }

/-- `Capabilities.Requested`: stage `values` into the Requested column, apply
ring2, clear the Requested column, run the callback, apply ring3.  `none`
models a panic raised by `set`/`unset` on an unseeded value.  Note the early
return when applying ring2 fails happens before the `unset`. -/
def RequestedRun (c : Capabilities) (os : OSState) (values : List CapValue)
    (o1 o2 : ApplyOutcome) (cbRes : Option GoErr) : Option RunRes :=
  if c.bypass then
    some { caps := c, os := os, ret := cbRes, trace := [Event.cbRan] }
  else
    match setList RingType.Requested c values with
    | none => none
    | some c1 =>
      match applyRing c1 os RingType.Requested o1 with
      | Except.error e =>
        some { caps := c1, os := os, ret := some e
               trace := [Event.applyFail RingType.Requested] }
      | Except.ok os1 =>
        match unsetList RingType.Requested c1 values with
        | none => none
        | some c2 =>
          match applyRing c2 os1 RingType.Unprivileged o2 with
          | Except.error e =>
            some { caps := c2, os := os1, ret := some e
                   trace := [Event.applyOk RingType.Requested, Event.cbRan,
                             Event.applyFail RingType.Unprivileged] }
          | Except.ok os2 =>
            some { caps := c2, os := os2, ret := cbRes
                   trace := [Event.applyOk RingType.Requested, Event.cbRan,
                             Event.applyOk RingType.Unprivileged] }

/-- The newline character of the suffix stripped by
`strings.TrimSuffix(string(value), "\n")`. -/
def newlineChar : Char := '\n'

/-- `strings.TrimSuffix(s, "\n")`: drop the trailing newline if present.
Since the suffix is the single character `'\n'`, this is exactly: if the
last character is a newline, drop it, else return the string unchanged
(stated on the character list so that it evaluates inside the kernel). -/
def trimNewline (s : String) : String :=
  if s.data.getLast? = some newlineChar then String.mk s.data.dropLast else s

/-- `getKernelPerfEventParanoidValue`.  `file` is the result of reading
`/proc/sys/kernel/perf_event_paranoid` (`none` = read error); `parseInt`
abstracts the external `strconv.ParseInt(_, 0, 16)` (`none` = parse error).
Either failure yields `MaxParanoiaLevel = 4` with a read error. -/
def getKernelPerfEventParanoidValue (file : Option String)
    (parseInt : String → Option Int) : Int × Option GoErr :=
  match file with
  | none => (4, some GoErr.couldNotReadPerfEventParanoid)
  | some s =>
    match parseInt (trimNewline s) with
    | none => (4, some GoErr.couldNotReadPerfEventParanoid)
    | some n => (n, none)

/-- The table seeded by the loop in `initialize`: an inner map for every
`v < cap.MaxBits()` with the Privileged entry true and every other ring entry
at its false zero value. -/
def seedTbl (maxBits : Nat) : CapValue → RingType → Bool :=
  fun v t =>
    if v < maxBits then
      (match t with | RingType.Privileged => true | _ => false)
    else false

/-- Result of `Capabilities.initialize`: a panic, an error return (with the
manager and OS state as left at that point), or a nil return. -/
inductive InitResult where
  | panicked
  | err (e : GoErr) (c : Capabilities) (os : OSState)
  | ok (c : Capabilities) (os : OSState)

/-- `Capabilities.initialize`.  `bypass` is the argument; `maxBits` is
`cap.MaxBits()`; `g1`/`s1` drive the `getProc`/`setProc` pair around the
bounding-set drop; `oA` drives the final `apply(Unprivileged)`; `file` and
`parseInt` feed the paranoia tunable read.  The `hasBPF` flag comes from the
`have` snapshot taken by `getProc`, i.e. from the entry permitted set. -/
def initCaps (c : Capabilities) (bypass : Bool) (maxBits : Nat) (os : OSState)
    (file : Option String) (parseInt : String → Option Int) (g1 s1 : Bool)
    (oA : ApplyOutcome) : InitResult :=
  if bypass then
    InitResult.ok { c with bypass := true } os
  else if c.inited then
    InitResult.err GoErr.alreadyInit c os
  else
    let c1 : Capabilities :=
      { c with
        tblDomain := maxBits
        tbl := seedTbl maxBits }
    if g1 = false then
      InitResult.err GoErr.couldNotGetProc c1 os
    else
      let os1 : OSState :=
        { os with bounding := fun v => if v < maxBits then false else os.bounding v }
      if s1 = false then
        InitResult.err GoErr.couldNotSetProc c1 os1
      else
        match c1.Require [IPC_LOCK, SYS_RESOURCE] with
        | none => InitResult.panicked
        | some c2 =>
          let paranoid := (getKernelPerfEventParanoidValue file parseInt).1
          match (if paranoid > 2 then c2.Require [SYS_ADMIN] else some c2) with
          | none => InitResult.panicked
          | some c3 =>
            let hasBPF := os1.permitted BPF
            match (if hasBPF then c3.Require [BPF, PERFMON] else c3.Require [SYS_ADMIN]) with
            | none => InitResult.panicked
            | some c4 =>
              match applyRing c4 os1 RingType.Unprivileged oA with
              | Except.error e => InitResult.err e c4 os1
              | Except.ok os2 => InitResult.ok c4 os2

/-- Whether an `initialize` call returned nil. -/
def InitResult.isOk : InitResult → Bool
  | InitResult.ok _ _ => true
  | _ => false

/-- The manager state carried by an `initialize` result (panic yields the
zero value; a panic never returns). -/
def InitResult.capsOf : InitResult → Capabilities
  | InitResult.ok c _ => c
  | InitResult.err _ c _ => c
  | InitResult.panicked => emptyCaps

/-- The OS state carried by an `initialize` result. -/
def InitResult.osOf : InitResult → OSState
  | InitResult.ok _ os => os
  | InitResult.err _ _ os => os
  | InitResult.panicked =>
      { effective := fun _ => false, permitted := fun _ => false
        bounding := fun _ => false }

/-- Membership of `v` in the Required ring of an `initialize` result. -/
def InitResult.requiredOf (r : InitResult) (v : CapValue) : Bool :=
  (r.capsOf).tbl v RingType.Required

/-- The inner loop of `ReqByString`: every capability value below `maxBits`
whose platform name (`cap.Value.String()`, abstracted as `capName`) equals
the given string, in increasing order. -/
def resolveOne (maxBits : Nat) (capName : CapValue → String) (given : String) :
    List CapValue :=
  (List.range maxBits).filter fun v => capName v = given

/-- `ReqByString`: resolve each name, failing with
`couldNotFindCapability` on the first name matching no capability. -/
def ReqByString (maxBits : Nat) (capName : CapValue → String) :
    List String → Except GoErr (List CapValue)
  | [] => Except.ok []
  | given :: rest =>
    let m := resolveOne maxBits capName given
    if m.isEmpty then
      Except.error (GoErr.couldNotFindCapability given)
    else
      match ReqByString maxBits capName rest with
      | Except.error e => Except.error e
      | Except.ok l => Except.ok (m ++ l)

/-- Whether the committed OS effective set agrees with ring `t`'s column of
the membership table on every seeded capability — i.e. whether `t` is the
active ring in the spec's sense. -/
def osMatchesRing (c : Capabilities) (os : OSState) (t : RingType) : Bool :=
  (List.range c.tblDomain).all fun v => os.effective v == c.tbl v t

/-- One post-initialization operation of the public API, with the data
driving it (OS outcomes and callback results). -/
inductive Op where
  | requireOp (vs : List CapValue)
  | unrequireOp (vs : List CapValue)
  | runPrivilegedOp (o1 o2 : ApplyOutcome) (cbRes : Option GoErr)
  | runRequiredOp (o1 o2 : ApplyOutcome) (cbRes : Option GoErr)
  | runRequestedOp (vs : List CapValue) (o1 o2 : ApplyOutcome) (cbRes : Option GoErr)

/-- Execute one public operation on the manager and OS state (`none` =
panic). -/
def stepOp (c : Capabilities) (os : OSState) : Op → Option (Capabilities × OSState)
  | Op.requireOp vs => (c.Require vs).map fun c' => (c', os)
  | Op.unrequireOp vs => (c.Unrequire vs).map fun c' => (c', os)
  | Op.runPrivilegedOp o1 o2 cbRes =>
      let r := PrivilegedRun c os o1 o2 cbRes
      some (r.caps, r.os)
  | Op.runRequiredOp o1 o2 cbRes =>
      let r := RequiredRun c os o1 o2 cbRes
      some (r.caps, r.os)
  | Op.runRequestedOp vs o1 o2 cbRes =>
      (RequestedRun c os vs o1 o2 cbRes).map fun r => (r.caps, r.os)

/-- Execute a sequence of public operations. -/
def runOps : Capabilities → OSState → List Op → Option (Capabilities × OSState)
  | c, os, [] => some (c, os)
  | c, os, op :: rest =>
    match stepOp c os op with
    | none => none
    | some (c', os') => runOps c' os' rest

/-- The Required-ring membership Policy Bootstrap computes: the base pair
{IPC_LOCK, SYS_RESOURCE}, SYS_ADMIN when the paranoia value exceeds 2, and
then BPF with PERFMON, or SYS_ADMIN, depending on the permitted set. -/
def ReqSet (paranoid : Int) (hasBPF : Bool) (v : CapValue) : Prop :=
  v = IPC_LOCK ∨ v = SYS_RESOURCE ∨ (paranoid > 2 ∧ v = SYS_ADMIN) ∨
    (if hasBPF then v = BPF ∨ v = PERFMON else v = SYS_ADMIN)

/-! ### Concrete fixtures used by witnesses and counterexamples -/

/-- An OS state whose permitted set holds everything (BPF in particular) and
whose effective set is empty. -/
def osA : OSState :=
  { effective := fun _ => false, permitted := fun _ => true,
    bounding := fun _ => true }

/-- An OS state whose permitted set is empty (no BPF). -/
def osNoBPF : OSState :=
  { effective := fun _ => false, permitted := fun _ => false,
    bounding := fun _ => true }

/-- A parse function that fails on every input (unparseable tunable). -/
def parseNone : String → Option Int := fun _ => none

/-- Content of a paranoia tunable file holding the value three. -/
def fileStr3 : String := "3"

/-- Content of a paranoia tunable file holding the value one. -/
def fileStr1 : String := "1"

/-- A parse function resolving the two concrete file contents above. -/
def parseSimple : String → Option Int := fun s =>
  if s = fileStr3 then some 3 else if s = fileStr1 then some 1 else none

/-- A small initialized-style manager with a single seeded capability,
used by counterexamples. -/
def cSmall : Capabilities :=
  { tblDomain := 1, tbl := seedTbl 1, bypass := false, inited := false }

/-- Initialization of a fresh manager on a 40-capability platform with an
unreadable paranoia tunable and BPF permitted, all OS transactions
succeeding. -/
def rInitA : InitResult :=
  initCaps emptyCaps false 40 osA none parseNone true true ApplyOutcome.ok

/-- As `rInitA` but with the paranoia tunable readable with value three and
BPF permitted. -/
def rInit3 : InitResult :=
  initCaps emptyCaps false 40 osA (some fileStr3) parseSimple true true
    ApplyOutcome.ok

/-- The event a restoring `apply(Unprivileged)` contributes to the trace,
given the outcome of its OS transaction. -/
def restoreEvent : ApplyOutcome → Event
  | ApplyOutcome.ok => Event.applyOk RingType.Unprivileged
  | _ => Event.applyFail RingType.Unprivileged

/-- The value a run-in-ring call returns once the elevated ring was applied:
the callback's result if the restoring apply succeeds, otherwise the
restoring apply's own error. -/
def restoreRet (o : ApplyOutcome) (cbRes : Option GoErr) : Option GoErr :=
  match o with
  | ApplyOutcome.ok => cbRes
  | ApplyOutcome.getFail => some GoErr.couldNotGetProc
  | ApplyOutcome.setFail => some GoErr.couldNotSetProc

/-- A sample sequence of post-initialization operations. -/
def demoOps : List Op :=
  [Op.requireOp [0], Op.unrequireOp [IPC_LOCK],
   Op.runPrivilegedOp ApplyOutcome.ok ApplyOutcome.ok none,
   Op.runRequestedOp [5] ApplyOutcome.ok ApplyOutcome.ok (some (GoErr.external 1)),
   Op.runRequiredOp ApplyOutcome.ok ApplyOutcome.setFail none]

/-- The manager and OS state after running `demoOps` on the `rInitA`
manager. -/
def demoStepped : Capabilities × OSState :=
  (runOps (InitResult.capsOf rInitA) (InitResult.osOf rInitA) demoOps).getD
    (emptyCaps, osA)

/-- A default run result used only to extract concrete runs below. -/
def defaultRunRes : RunRes :=
  { caps := emptyCaps, os := osA, ret := none, trace := [] }

/-- A concrete successful `Requested` run on the small manager. -/
def demoReqRun : RunRes :=
  (RequestedRun cSmall osA [0] ApplyOutcome.ok ApplyOutcome.ok none).getD
    defaultRunRes

/-- A concrete `Requested` run whose restoring apply fails. -/
def demoReqRun2 : RunRes :=
  (RequestedRun cSmall osA [0] ApplyOutcome.ok ApplyOutcome.setFail
    (some (GoErr.external 3))).getD defaultRunRes

/-! ### Helper lemmas about the table-updating loops -/

theorem bool_ext {a b : Bool} (h : a = true ↔ b = true) : a = b := by
  cases a <;> cases b <;> simp_all

theorem setList_some (t : RingType) (c : Capabilities) (vs : List CapValue)
    (h : ∀ v ∈ vs, v < c.tblDomain) : ∃ c', setList t c vs = some c' := by
  induction vs generalizing c with
  | nil => exact ⟨c, rfl⟩
  | cons v rest ih =>
      have hv : v < c.tblDomain := h v (List.mem_cons_self v rest)
      simp only [setList, if_pos hv]
      exact ih _ fun w hw => h w (List.mem_cons_of_mem _ hw)

theorem setList_fields (t : RingType) (c c' : Capabilities) (vs : List CapValue)
    (h : setList t c vs = some c') :
    c'.tblDomain = c.tblDomain ∧ c'.bypass = c.bypass ∧ c'.inited = c.inited := by
  induction vs generalizing c with
  | nil =>
      simp only [setList] at h
      cases h
      exact ⟨rfl, rfl, rfl⟩
  | cons v rest ih =>
      simp only [setList] at h
      split at h
      · exact ih { c with tbl := updateTbl c.tbl v t true } h
      · cases h

theorem setList_tbl (t : RingType) (c c' : Capabilities) (vs : List CapValue)
    (h : setList t c vs = some c') (w : CapValue) (r : RingType) :
    (c'.tbl w r = true ↔ c.tbl w r = true ∨ (r = t ∧ w ∈ vs)) := by
  induction vs generalizing c with
  | nil =>
      simp only [setList] at h
      cases h
      simp
  | cons v rest ih =>
      simp only [setList] at h
      split at h
      · have H := ih _ h
        rw [H]
        simp only [updateTbl]
        by_cases h1 : w = v ∧ r = t
        · simp [h1.1, h1.2, List.mem_cons]
        · rw [if_neg h1]
          simp only [List.mem_cons]
          constructor
          · rintro (hc | ⟨hr, hw⟩)
            · exact Or.inl hc
            · exact Or.inr ⟨hr, Or.inr hw⟩
          · rintro (hc | ⟨hr, hw | hw⟩)
            · exact Or.inl hc
            · exact absurd ⟨hw, hr⟩ h1
            · exact Or.inr ⟨hr, hw⟩
      · cases h

theorem unsetList_some (t : RingType) (c : Capabilities) (vs : List CapValue)
    (h : ∀ v ∈ vs, v < c.tblDomain) : ∃ c', unsetList t c vs = some c' := by
  induction vs generalizing c with
  | nil => exact ⟨c, rfl⟩
  | cons v rest ih =>
      have hv : v < c.tblDomain := h v (List.mem_cons_self v rest)
      simp only [unsetList, if_pos hv]
      exact ih _ fun w hw => h w (List.mem_cons_of_mem _ hw)

theorem unsetList_fields (t : RingType) (c c' : Capabilities) (vs : List CapValue)
    (h : unsetList t c vs = some c') :
    c'.tblDomain = c.tblDomain ∧ c'.bypass = c.bypass ∧ c'.inited = c.inited := by
  induction vs generalizing c with
  | nil =>
      simp only [unsetList] at h
      cases h
      exact ⟨rfl, rfl, rfl⟩
  | cons v rest ih =>
      simp only [unsetList] at h
      split at h
      · exact ih { c with tbl := updateTbl c.tbl v t false } h
      · cases h

theorem unsetList_tbl (t : RingType) (c c' : Capabilities) (vs : List CapValue)
    (h : unsetList t c vs = some c') (w : CapValue) (r : RingType) :
    (c'.tbl w r = true ↔ c.tbl w r = true ∧ ¬(r = t ∧ w ∈ vs)) := by
  induction vs generalizing c with
  | nil =>
      simp only [unsetList] at h
      cases h
      simp
  | cons v rest ih =>
      simp only [unsetList] at h
      split at h
      · have H := ih _ h
        rw [H]
        simp only [updateTbl]
        by_cases h1 : w = v ∧ r = t
        · simp [h1.1, h1.2, List.mem_cons]
        · rw [if_neg h1]
          simp only [List.mem_cons]
          constructor
          · rintro ⟨hc, hn⟩
            refine ⟨hc, ?_⟩
            rintro ⟨hr, hw | hw⟩
            · exact h1 ⟨hw, hr⟩
            · exact hn ⟨hr, hw⟩
          · rintro ⟨hc, hn⟩
            refine ⟨hc, ?_⟩
            rintro ⟨hr, hw⟩
            exact hn ⟨hr, Or.inr hw⟩
      · cases h

theorem setList_none (t : RingType) (c : Capabilities) (v : CapValue)
    (hv : ¬ v < c.tblDomain) : setList t c [v] = none := by
  simp [setList, hv]

theorem unsetList_none (t : RingType) (c : Capabilities) (v : CapValue)
    (hv : ¬ v < c.tblDomain) : unsetList t c [v] = none := by
  simp [unsetList, hv]

theorem seedTbl_eq (mb : Nat) (v : CapValue) (r : RingType) :
    (seedTbl mb v r = true ↔ r = RingType.Privileged ∧ v < mb) := by
  cases r <;> simp [seedTbl]

/-- Unfolding `Require` on a non-bypass manager. -/
theorem Require_eq_setList (c : Capabilities) (hb : c.bypass = false)
    (vs : List CapValue) :
    c.Require vs = setList RingType.Required c vs := by
  simp [Capabilities.Require, hb]

/-- Unfolding `Unrequire` on a non-bypass manager. -/
theorem Unrequire_eq_unsetList (c : Capabilities) (hb : c.bypass = false)
    (vs : List CapValue) :
    c.Unrequire vs = unsetList RingType.Required c vs := by
  simp [Capabilities.Unrequire, hb]

/-- Characterization of the `Require` chain performed by Policy Bootstrap on
a freshly seeded table: the scalar fields survive and the resulting table is
the seed plus exactly the Required entries of `ReqSet`. -/
theorem reqChain_char (c1 c2 c3 c4 : Capabilities) (mb : Nat) (paranoid : Int)
    (hasBPF : Bool) (h1 : c1.tbl = seedTbl mb)
    (heq2 : setList RingType.Required c1 [IPC_LOCK, SYS_RESOURCE] = some c2)
    (heq3 : (if paranoid > 2 then setList RingType.Required c2 [SYS_ADMIN]
             else some c2) = some c3)
    (heq4 : (if hasBPF then setList RingType.Required c3 [BPF, PERFMON]
             else setList RingType.Required c3 [SYS_ADMIN]) = some c4) :
    (c4.tblDomain = c1.tblDomain ∧ c4.bypass = c1.bypass ∧ c4.inited = c1.inited) ∧
    ∀ v r, (c4.tbl v r = true ↔
      (r = RingType.Privileged ∧ v < mb) ∨
      (r = RingType.Required ∧ ReqSet paranoid hasBPF v)) := by
  by_cases hp : paranoid > 2
  · rw [if_pos hp] at heq3
    by_cases hbpf : hasBPF = true
    · rw [if_pos hbpf] at heq4
      obtain ⟨f2a, f2b, f2c⟩ := setList_fields _ _ _ _ heq2
      obtain ⟨f3a, f3b, f3c⟩ := setList_fields _ _ _ _ heq3
      obtain ⟨f4a, f4b, f4c⟩ := setList_fields _ _ _ _ heq4
      refine ⟨⟨by rw [f4a, f3a, f2a], by rw [f4b, f3b, f2b], by rw [f4c, f3c, f2c]⟩, ?_⟩
      intro v r
      have e2 := setList_tbl _ _ _ _ heq2 v r
      rw [h1] at e2
      have e3 := setList_tbl _ _ _ _ heq3 v r
      have e4 := setList_tbl _ _ _ _ heq4 v r
      have es := seedTbl_eq mb v r
      rw [e4, e3, e2, es]
      clear e2 e3 e4 es heq2 heq3 heq4 h1 f2a f2b f2c f3a f3b f3c f4a f4b f4c
      cases r <;>
        simp only [ReqSet, hbpf, if_true, List.mem_cons, List.mem_singleton,
          List.not_mem_nil, or_false] <;>
        tauto
    · rw [if_neg hbpf] at heq4
      obtain ⟨f2a, f2b, f2c⟩ := setList_fields _ _ _ _ heq2
      obtain ⟨f3a, f3b, f3c⟩ := setList_fields _ _ _ _ heq3
      obtain ⟨f4a, f4b, f4c⟩ := setList_fields _ _ _ _ heq4
      refine ⟨⟨by rw [f4a, f3a, f2a], by rw [f4b, f3b, f2b], by rw [f4c, f3c, f2c]⟩, ?_⟩
      intro v r
      have e2 := setList_tbl _ _ _ _ heq2 v r
      rw [h1] at e2
      have e3 := setList_tbl _ _ _ _ heq3 v r
      have e4 := setList_tbl _ _ _ _ heq4 v r
      have es := seedTbl_eq mb v r
      rw [e4, e3, e2, es]
      clear e2 e3 e4 es heq2 heq3 heq4 h1 f2a f2b f2c f3a f3b f3c f4a f4b f4c
      cases r <;>
        simp only [ReqSet, hbpf, if_false, List.mem_cons, List.mem_singleton,
          List.not_mem_nil, or_false] <;>
        tauto
  · rw [if_neg hp] at heq3
    cases heq3
    by_cases hbpf : hasBPF = true
    · rw [if_pos hbpf] at heq4
      obtain ⟨f2a, f2b, f2c⟩ := setList_fields _ _ _ _ heq2
      obtain ⟨f4a, f4b, f4c⟩ := setList_fields _ _ _ _ heq4
      refine ⟨⟨by rw [f4a, f2a], by rw [f4b, f2b], by rw [f4c, f2c]⟩, ?_⟩
      intro v r
      have e2 := setList_tbl _ _ _ _ heq2 v r
      rw [h1] at e2
      have e4 := setList_tbl _ _ _ _ heq4 v r
      have es := seedTbl_eq mb v r
      rw [e4, e2, es]
      clear e2 e4 es heq2 heq4 h1 f2a f2b f2c f4a f4b f4c
      cases r <;>
        simp only [ReqSet, hbpf, if_true, List.mem_cons, List.mem_singleton,
          List.not_mem_nil, or_false] <;>
        tauto
    · rw [if_neg hbpf] at heq4
      obtain ⟨f2a, f2b, f2c⟩ := setList_fields _ _ _ _ heq2
      obtain ⟨f4a, f4b, f4c⟩ := setList_fields _ _ _ _ heq4
      refine ⟨⟨by rw [f4a, f2a], by rw [f4b, f2b], by rw [f4c, f2c]⟩, ?_⟩
      intro v r
      have e2 := setList_tbl _ _ _ _ heq2 v r
      rw [h1] at e2
      have e4 := setList_tbl _ _ _ _ heq4 v r
      have es := seedTbl_eq mb v r
      rw [e4, e2, es]
      clear e2 e4 es heq2 heq4 h1 f2a f2b f2c f4a f4b f4c
      cases r <;>
        simp only [ReqSet, hbpf, if_false, List.mem_cons, List.mem_singleton,
          List.not_mem_nil, or_false] <;>
        tauto

/-- Characterization of a successful `initialize(false)` call on a manager
whose bypass flag is off: the table domain becomes the platform count, the
bypass flag stays off, the Privileged column is full on the domain, and the
Required column is exactly the set Policy Bootstrap computes from the
paranoia value and the permitted BPF flag; every other entry is false. -/
theorem initCaps_ok_char (c : Capabilities) (mb : Nat) (os : OSState)
    (file : Option String) (parse : String → Option Int) (g1 s1 : Bool)
    (oA : ApplyOutcome) (c' : Capabilities) (os' : OSState)
    (hb : c.bypass = false)
    (h : initCaps c false mb os file parse g1 s1 oA = InitResult.ok c' os') :
    c'.tblDomain = mb ∧ c'.bypass = false ∧
    ∀ v r, (c'.tbl v r = true ↔
      (r = RingType.Privileged ∧ v < mb) ∨
      (r = RingType.Required ∧
        ReqSet (getKernelPerfEventParanoidValue file parse).1 (os.permitted BPF) v)) := by
  simp only [initCaps, Bool.false_eq_true, if_false] at h
  split at h
  · cases h
  · split at h
    · cases h
    · split at h
      · cases h
      · rw [Require_eq_setList
            { tblDomain := mb, tbl := seedTbl mb, bypass := c.bypass,
              inited := c.inited } hb] at h
        split at h
        · cases h
        · rename_i c2 heq2
          rw [Require_eq_setList c2 (by
                have := (setList_fields _ _ _ _ heq2).2.1
                rw [this, hb])] at h
          split at h
          · cases h
          · rename_i c3 heq3
            have hb3 : c3.bypass = false := by
              rcases Decidable.em
                  ((getKernelPerfEventParanoidValue file parse).1 > 2) with hp | hp
              · rw [if_pos hp] at heq3
                rw [(setList_fields _ _ _ _ heq3).2.1,
                  (setList_fields _ _ _ _ heq2).2.1, hb]
              · rw [if_neg hp] at heq3
                cases heq3
                rw [(setList_fields _ _ _ _ heq2).2.1, hb]
            rw [Require_eq_setList c3 hb3, Require_eq_setList c3 hb3] at h
            split at h
            · cases h
            · rename_i c4 heq4
              split at h
              · cases h
              · rename_i os2 heqA
                cases h
                have hchar := reqChain_char _ c2 c3 c' mb
                  (getKernelPerfEventParanoidValue file parse).1 (os.permitted BPF)
                  rfl heq2 heq3 heq4
                exact ⟨hchar.1.1, by rw [hchar.1.2.1, hb], hchar.2⟩

/-! ### Claim theorems -/

/-- C7: after `Initialize(true)` the manager is a pure passthrough: the
bypass initialization itself returns nil leaving everything but the bypass
flag untouched, and on that manager `Require` and `Unrequire` return nil
immediately without touching the table, while each run-in-ring operation
performs no OS transaction (the trace holds only the callback event, the OS
state is unchanged), leaves the manager untouched, and returns exactly the
callback's result. -/
theorem bypass_passthrough (c0 : Capabilities) (mb : Nat) (os os2 : OSState)
    (file : Option String) (parse : String → Option Int) (g1 s1 : Bool)
    (oA o1 o2 : ApplyOutcome) (vs : List CapValue) (cbRes : Option GoErr) :
    initCaps c0 true mb os file parse g1 s1 oA
      = InitResult.ok { c0 with bypass := true } os ∧
    Capabilities.Require { c0 with bypass := true } vs
      = some { c0 with bypass := true } ∧
    Capabilities.Unrequire { c0 with bypass := true } vs
      = some { c0 with bypass := true } ∧
    PrivilegedRun { c0 with bypass := true } os2 o1 o2 cbRes
      = { caps := { c0 with bypass := true }, os := os2, ret := cbRes,
          trace := [Event.cbRan] } ∧
    RequiredRun { c0 with bypass := true } os2 o1 o2 cbRes
      = { caps := { c0 with bypass := true }, os := os2, ret := cbRes,
          trace := [Event.cbRan] } ∧
    RequestedRun { c0 with bypass := true } os2 vs o1 o2 cbRes
      = some { caps := { c0 with bypass := true }, os := os2, ret := cbRes,
               trace := [Event.cbRan] } :=
  ⟨rfl, rfl, rfl, rfl, rfl, rfl⟩

/-- C3 (observed code bug): the already-initialized guard is dead code — the
`initialized` flag is never assigned, so a second `initialize(false)` on an
already-initialized manager does not fail with the already-initialized
error; it silently re-runs the whole initialization and returns nil, with
the flag still false afterwards. -/
theorem initCaps_twice_not_already_error :
    rInitA.isOk = true ∧
    (initCaps rInitA.capsOf false 40 rInitA.osOf none parseNone true true
        ApplyOutcome.ok).isOk = true ∧
    (initCaps rInitA.capsOf false 40 rInitA.osOf none parseNone true true
        ApplyOutcome.ok).capsOf.inited = false := by
  decide

/-- C10: after a successful non-bypass initialization, `Require`,
`Unrequire` and the `Requested` run on a capability value at or above the
platform count do not return an error: the value has no seeded inner map, so
the unconditional map write panics. -/
theorem unknown_value_panics (c : Capabilities) (mb : Nat) (os : OSState)
    (file : Option String) (parse : String → Option Int) (g1 s1 : Bool)
    (oA o1 o2 : ApplyOutcome) (cbRes : Option GoErr) (c' : Capabilities)
    (os' : OSState) (v : CapValue) (hb : c.bypass = false) (hv : mb ≤ v)
    (h : initCaps c false mb os file parse g1 s1 oA = InitResult.ok c' os') :
    Capabilities.Require c' [v] = none ∧
    Capabilities.Unrequire c' [v] = none ∧
    RequestedRun c' os' [v] o1 o2 cbRes = none := by
  obtain ⟨hd, hbv, _⟩ := initCaps_ok_char c mb os file parse g1 s1 oA c' os' hb h
  have hnot : ¬ v < c'.tblDomain := by rw [hd]; exact Nat.not_lt.mpr hv
  refine ⟨?_, ?_, ?_⟩
  · rw [Require_eq_setList c' hbv]
    exact setList_none _ _ _ hnot
  · rw [Unrequire_eq_unsetList c' hbv]
    exact unsetList_none _ _ _ hnot
  · simp only [RequestedRun, hbv, Bool.false_eq_true, if_false,
      setList_none _ _ _ hnot]

/-- Witness for C10 at a concrete initialization on a 40-capability
platform and the unseeded value 41. -/
theorem unknown_value_panics_witness :
    Capabilities.Require (InitResult.capsOf rInitA) [41] = none ∧
    Capabilities.Unrequire (InitResult.capsOf rInitA) [41] = none ∧
    RequestedRun (InitResult.capsOf rInitA) (InitResult.osOf rInitA) [41]
      ApplyOutcome.ok ApplyOutcome.ok none = none :=
  unknown_value_panics emptyCaps 40 osA none parseNone true true
    ApplyOutcome.ok ApplyOutcome.ok ApplyOutcome.ok none
    (InitResult.capsOf rInitA) (InitResult.osOf rInitA) 41 rfl
    (by decide) rfl

/-- C9: `ReqByString` either resolves every given name to a capability value
below the platform count, or fails with `couldNotFindCapability` naming the
first name, in input order, that matches no capability's string; the failure
carries no capability list and the function touches no manager state. -/
theorem reqByString_resolution (mb : Nat) (capName : CapValue → String)
    (names : List String) :
    match ReqByString mb capName names with
    | Except.ok _ => ∀ g ∈ names, ∃ v, v < mb ∧ capName v = g
    | Except.error e => ∃ g, e = GoErr.couldNotFindCapability g ∧
        names.find? (fun g' => (resolveOne mb capName g').isEmpty) = some g := by
  induction names with
  | nil =>
      simp only [ReqByString]
      intro g hg
      cases hg
  | cons g rest ih =>
      simp only [ReqByString]
      by_cases hE : (resolveOne mb capName g).isEmpty = true
      · rw [if_pos hE]
        exact ⟨g, rfl, List.find?_cons_of_pos rest hE⟩
      · rw [if_neg hE]
        have hres : ∃ v, v < mb ∧ capName v = g := by
          rcases hm : resolveOne mb capName g with _ | ⟨v, mtail⟩
          · rw [hm] at hE
            exact absurd rfl hE
          · have hv : v ∈ resolveOne mb capName g := by
              rw [hm]
              exact List.mem_cons_self v mtail
            have := List.mem_filter.mp hv
            exact ⟨v, List.mem_range.mp this.1, of_decide_eq_true this.2⟩
        rcases hR : ReqByString mb capName rest with e | l
        · rw [hR] at ih
          obtain ⟨gg, hgg, hfind⟩ := ih
          exact ⟨gg, hgg, by
            rw [List.find?_cons_of_neg rest (by simp [hE])]
            exact hfind⟩
        · rw [hR] at ih
          intro g' hg'
          rcases List.mem_cons.mp hg' with rfl | hmem
          · exact hres
          · exact ih g' hmem

theorem unsetList_mem_false (t : RingType) (c c' : Capabilities)
    (vs : List CapValue) (h : unsetList t c vs = some c') (v : CapValue)
    (hv : v ∈ vs) : c'.tbl v t = false := by
  cases hc : c'.tbl v t
  · rfl
  · have := (unsetList_tbl t c c' vs h v t).mp hc
    exact absurd ⟨rfl, hv⟩ this.2

theorem osMatchesRing_apply_ok (c : Capabilities) (os : OSState) (t : RingType) :
    osMatchesRing c
      { os with
        effective := fun v => if v < c.tblDomain then c.tbl v t else os.effective v }
      t = true := by
  simp only [osMatchesRing, List.all_eq_true]
  intro v hv
  have hlt := List.mem_range.mp hv
  simp [hlt]

/-- C1: in every run-in-ring operation with bypass inactive, once the
elevated ring has been applied successfully the restoring
`apply(Unprivileged)` is attempted after the callback runs, even when the
callback fails; the callback's result is returned exactly when that
restoring apply completed successfully, and otherwise the restoring apply's
error is returned instead. -/
theorem run_restore_after_callback (c : Capabilities) (os : OSState)
    (o2 : ApplyOutcome) (cbRes : Option GoErr) (vs : List CapValue)
    (hb : c.bypass = false) (hvs : ∀ v ∈ vs, v < c.tblDomain) :
    ((PrivilegedRun c os ApplyOutcome.ok o2 cbRes).trace
        = [Event.applyOk RingType.Privileged, Event.cbRan, restoreEvent o2] ∧
      (PrivilegedRun c os ApplyOutcome.ok o2 cbRes).ret = restoreRet o2 cbRes) ∧
    ((RequiredRun c os ApplyOutcome.ok o2 cbRes).trace
        = [Event.applyOk RingType.Required, Event.cbRan, restoreEvent o2] ∧
      (RequiredRun c os ApplyOutcome.ok o2 cbRes).ret = restoreRet o2 cbRes) ∧
    ((RequestedRun c os vs ApplyOutcome.ok o2 cbRes).map RunRes.trace
        = some [Event.applyOk RingType.Requested, Event.cbRan, restoreEvent o2] ∧
      (RequestedRun c os vs ApplyOutcome.ok o2 cbRes).map RunRes.ret
        = some (restoreRet o2 cbRes)) := by
  obtain ⟨c1, hset⟩ := setList_some RingType.Requested c vs hvs
  have hdom1 : ∀ v ∈ vs, v < c1.tblDomain := by
    intro v hv
    rw [(setList_fields _ _ _ _ hset).1]
    exact hvs v hv
  obtain ⟨c2, hunset⟩ := unsetList_some RingType.Requested c1 vs hdom1
  cases o2 <;>
    simp [PrivilegedRun, RequiredRun, RequestedRun, applyRing, hb, hset, hunset,
      restoreEvent, restoreRet]

/-- Witness for C1: with a failing restoring apply the caller receives the
commit error, not the callback's own error; the callback's error is
delivered only through a successful restore. -/
theorem run_restore_after_callback_witness :
    (PrivilegedRun cSmall osA ApplyOutcome.ok ApplyOutcome.setFail
        (some (GoErr.external 7))).ret
      = restoreRet ApplyOutcome.setFail (some (GoErr.external 7)) ∧
    (RequestedRun cSmall osA [0] ApplyOutcome.ok ApplyOutcome.setFail
        (some (GoErr.external 7))).map RunRes.ret
      = some (restoreRet ApplyOutcome.setFail (some (GoErr.external 7))) :=
  ⟨(run_restore_after_callback cSmall osA ApplyOutcome.setFail
      (some (GoErr.external 7)) [0] rfl (by decide)).1.2,
   (run_restore_after_callback cSmall osA ApplyOutcome.setFail
      (some (GoErr.external 7)) [0] rfl (by decide)).2.2.2⟩

/-- C4 counterexample: when the apply of the Requested ring itself fails,
`Requested` returns the query error with the staged values still in the
Requested column — membership is true, not false, after the call returns. -/
theorem requested_column_cex :
    (RequestedRun cSmall osA [0] ApplyOutcome.getFail ApplyOutcome.ok none).map
      (fun r => r.caps.tbl 0 RingType.Requested) = some true ∧
    (RequestedRun cSmall osA [0] ApplyOutcome.getFail ApplyOutcome.ok none).map
      RunRes.ret = some (some GoErr.couldNotGetProc) := by
  decide

/-- C4 amended: after `Requested` returns, the Requested column is false on
every staged value, provided the staging apply of the Requested ring
succeeded (the restoring apply and the callback may still fail). -/
theorem requested_column_cleared (c : Capabilities) (os : OSState)
    (vs : List CapValue) (o2 : ApplyOutcome) (cbRes : Option GoErr) (r : RunRes)
    (hb : c.bypass = false)
    (h : RequestedRun c os vs ApplyOutcome.ok o2 cbRes = some r) :
    ∀ v ∈ vs, r.caps.tbl v RingType.Requested = false := by
  simp only [RequestedRun, hb, Bool.false_eq_true, if_false, applyRing] at h
  split at h
  · cases h
  · rename_i c1 hset
    split at h
    · cases h
    · rename_i c2 hunset
      cases o2 <;> simp only [] at h <;> cases h <;>
        exact fun v hv => unsetList_mem_false _ _ _ _ hunset v hv

/-- Witness for C4 at a run whose restoring apply fails and whose callback
errors: the staged value is nevertheless cleared. -/
theorem requested_column_cleared_witness :
    demoReqRun2.caps.tbl 0 RingType.Requested = false :=
  requested_column_cleared cSmall osA [0] ApplyOutcome.setFail
    (some (GoErr.external 3)) demoReqRun2 rfl rfl 0 (by simp)

/-- C5 counterexample: if the restoring apply fails, the call returns the
commit error while the OS state still matches the elevated Privileged ring,
not Unprivileged. -/
theorem active_ring_cex :
    (PrivilegedRun cSmall osA ApplyOutcome.ok ApplyOutcome.setFail none).ret
      = some GoErr.couldNotSetProc ∧
    osMatchesRing
      (PrivilegedRun cSmall osA ApplyOutcome.ok ApplyOutcome.setFail none).caps
      (PrivilegedRun cSmall osA ApplyOutcome.ok ApplyOutcome.setFail none).os
      RingType.Unprivileged = false ∧
    osMatchesRing
      (PrivilegedRun cSmall osA ApplyOutcome.ok ApplyOutcome.setFail none).caps
      (PrivilegedRun cSmall osA ApplyOutcome.ok ApplyOutcome.setFail none).os
      RingType.Privileged = true := by
  decide

/-- C5 amended: after any run-in-ring call with bypass inactive during which
no apply failed (in particular whenever the call returns success or only the
callback's error), the committed OS effective set matches the Unprivileged
ring, regardless of the callback's result. -/
theorem run_returns_in_unprivileged (c : Capabilities) (os : OSState)
    (o1 o2 : ApplyOutcome) (cbRes : Option GoErr) (vs : List CapValue)
    (r : RunRes) (hb : c.bypass = false) :
    ((∀ t, Event.applyFail t ∉ (PrivilegedRun c os o1 o2 cbRes).trace) →
      osMatchesRing (PrivilegedRun c os o1 o2 cbRes).caps
        (PrivilegedRun c os o1 o2 cbRes).os RingType.Unprivileged = true) ∧
    ((∀ t, Event.applyFail t ∉ (RequiredRun c os o1 o2 cbRes).trace) →
      osMatchesRing (RequiredRun c os o1 o2 cbRes).caps
        (RequiredRun c os o1 o2 cbRes).os RingType.Unprivileged = true) ∧
    (RequestedRun c os vs o1 o2 cbRes = some r →
      (∀ t, Event.applyFail t ∉ r.trace) →
      osMatchesRing r.caps r.os RingType.Unprivileged = true) := by
  refine ⟨?_, ?_, ?_⟩
  · cases o1 <;> cases o2 <;>
      simp only [PrivilegedRun, applyRing, hb, Bool.false_eq_true, if_false] <;>
      intro hno
    case ok.ok =>
      exact osMatchesRing_apply_ok c
        { os with effective := fun v =>
            if v < c.tblDomain then c.tbl v RingType.Privileged
            else os.effective v }
        RingType.Unprivileged
    case ok.getFail =>
      exact absurd (by simp) (hno RingType.Unprivileged)
    case ok.setFail =>
      exact absurd (by simp) (hno RingType.Unprivileged)
    case getFail.ok => exact absurd (by simp) (hno RingType.Privileged)
    case getFail.getFail => exact absurd (by simp) (hno RingType.Privileged)
    case getFail.setFail => exact absurd (by simp) (hno RingType.Privileged)
    case setFail.ok => exact absurd (by simp) (hno RingType.Privileged)
    case setFail.getFail => exact absurd (by simp) (hno RingType.Privileged)
    case setFail.setFail => exact absurd (by simp) (hno RingType.Privileged)
  · cases o1 <;> cases o2 <;>
      simp only [RequiredRun, applyRing, hb, Bool.false_eq_true, if_false] <;>
      intro hno
    case ok.ok =>
      exact osMatchesRing_apply_ok c
        { os with effective := fun v =>
            if v < c.tblDomain then c.tbl v RingType.Required
            else os.effective v }
        RingType.Unprivileged
    case ok.getFail =>
      exact absurd (by simp) (hno RingType.Unprivileged)
    case ok.setFail =>
      exact absurd (by simp) (hno RingType.Unprivileged)
    case getFail.ok => exact absurd (by simp) (hno RingType.Required)
    case getFail.getFail => exact absurd (by simp) (hno RingType.Required)
    case getFail.setFail => exact absurd (by simp) (hno RingType.Required)
    case setFail.ok => exact absurd (by simp) (hno RingType.Required)
    case setFail.getFail => exact absurd (by simp) (hno RingType.Required)
    case setFail.setFail => exact absurd (by simp) (hno RingType.Required)
  · intro h hno
    simp only [RequestedRun, hb, Bool.false_eq_true, if_false] at h
    split at h
    · cases h
    · rename_i c1 hset
      cases o1 <;> simp only [applyRing] at h
      case getFail =>
        cases h
        exact absurd (by simp) (hno RingType.Requested)
      case setFail =>
        cases h
        exact absurd (by simp) (hno RingType.Requested)
      case ok =>
        split at h
        · cases h
        · rename_i c2 hunset
          cases o2 with
          | getFail =>
              simp only [applyRing] at h
              cases h
              exact absurd (by simp) (hno RingType.Unprivileged)
          | setFail =>
              simp only [applyRing] at h
              cases h
              exact absurd (by simp) (hno RingType.Unprivileged)
          | ok =>
              simp only [applyRing] at h
              cases h
              exact osMatchesRing_apply_ok c2
                { os with effective := fun v =>
                    if v < c1.tblDomain then c1.tbl v RingType.Requested
                    else os.effective v }
                RingType.Unprivileged

/-- Witness for C5 on a concrete successful `Requested` run: the OS state
matches the Unprivileged ring afterwards. -/
theorem run_returns_in_unprivileged_witness :
    osMatchesRing demoReqRun.caps demoReqRun.os RingType.Unprivileged = true :=
  (run_returns_in_unprivileged cSmall osA ApplyOutcome.ok ApplyOutcome.ok none
    [0] demoReqRun rfl).2.2 rfl (by decide)

/-- C2 counterexample: with the paranoia tunable at 3 (greater than 2) and
BPF permitted, a successful bootstrap does not stop after requiring
SYS_ADMIN — it still consults the permitted set and also adds BPF and
PERFMON to the Required ring. -/
theorem bootstrap_stop_cex :
    rInit3.isOk = true ∧
    (getKernelPerfEventParanoidValue (some fileStr3) parseSimple).1 = 3 ∧
    InitResult.requiredOf rInit3 BPF = true ∧
    InitResult.requiredOf rInit3 PERFMON = true := by
  decide

/-- C2 amended: when the paranoia value exceeds 2, Policy Bootstrap marks
SYS_ADMIN as Required and then continues: it still consults the permitted
set for BPF, so membership of BPF and PERFMON in the Required ring equals
the permitted-BPF flag (and SYS_ADMIN is Required in either case). -/
theorem bootstrap_paranoid_gt2 (c : Capabilities) (mb : Nat) (os : OSState)
    (file : Option String) (parse : String → Option Int) (g1 s1 : Bool)
    (oA : ApplyOutcome) (c' : Capabilities) (os' : OSState)
    (hb : c.bypass = false)
    (hp : (getKernelPerfEventParanoidValue file parse).1 > 2)
    (h : initCaps c false mb os file parse g1 s1 oA = InitResult.ok c' os') :
    c'.tbl SYS_ADMIN RingType.Required = true ∧
    c'.tbl BPF RingType.Required = os.permitted BPF ∧
    c'.tbl PERFMON RingType.Required = os.permitted BPF := by
  obtain ⟨-, -, hchar⟩ := initCaps_ok_char c mb os file parse g1 s1 oA c' os' hb h
  refine ⟨?_, ?_, ?_⟩
  · exact (hchar SYS_ADMIN RingType.Required).mpr
      (Or.inr ⟨rfl, Or.inr (Or.inr (Or.inl ⟨hp, rfl⟩))⟩)
  · cases hbpf : os.permitted BPF
    · apply bool_ext
      rw [hchar BPF RingType.Required, hbpf]
      have d1 : BPF ≠ IPC_LOCK := by decide
      have d2 : BPF ≠ SYS_RESOURCE := by decide
      have d3 : BPF ≠ SYS_ADMIN := by decide
      simp [ReqSet, d1, d2, d3]
    · rw [hchar BPF RingType.Required]
      simp [ReqSet, hbpf]
  · cases hbpf : os.permitted BPF
    · apply bool_ext
      rw [hchar PERFMON RingType.Required, hbpf]
      have d1 : PERFMON ≠ IPC_LOCK := by decide
      have d2 : PERFMON ≠ SYS_RESOURCE := by decide
      have d3 : PERFMON ≠ SYS_ADMIN := by decide
      simp [ReqSet, d1, d2, d3]
    · rw [hchar PERFMON RingType.Required]
      simp [ReqSet, hbpf]

/-- Witness for the amended C2 at the concrete paranoia-3, BPF-permitted
initialization. -/
theorem bootstrap_paranoid_gt2_witness :
    (InitResult.capsOf rInit3).tbl SYS_ADMIN RingType.Required = true ∧
    (InitResult.capsOf rInit3).tbl BPF RingType.Required = osA.permitted BPF ∧
    (InitResult.capsOf rInit3).tbl PERFMON RingType.Required = osA.permitted BPF :=
  bootstrap_paranoid_gt2 emptyCaps 40 osA (some fileStr3) parseSimple true true
    ApplyOutcome.ok (InitResult.capsOf rInit3) (InitResult.osOf rInit3) rfl
    (by decide) rfl

/-- C8: an unreadable tunable file, or an unparseable content, yields the
most restrictive value 4 together with a non-fatal read error; bootstrap
then proceeds exactly as in any paranoia-greater-than-2 run (the whole
initialization result coincides), and a successful initialization marks
IPC_LOCK, SYS_RESOURCE and SYS_ADMIN as Required. -/
theorem paranoid_fallback (c : Capabilities) (mb : Nat) (os : OSState)
    (s : String) (parse parse2 : String → Option Int) (file2 : Option String)
    (g1 s1 : Bool) (oA : ApplyOutcome) (c' : Capabilities) (os' : OSState)
    (hb : c.bypass = false) :
    getKernelPerfEventParanoidValue none parse
      = (4, some GoErr.couldNotReadPerfEventParanoid) ∧
    (parse (trimNewline s) = none →
      getKernelPerfEventParanoidValue (some s) parse
        = (4, some GoErr.couldNotReadPerfEventParanoid)) ∧
    ((getKernelPerfEventParanoidValue file2 parse2).1 > 2 →
      initCaps c false mb os none parse g1 s1 oA
        = initCaps c false mb os file2 parse2 g1 s1 oA) ∧
    (initCaps c false mb os none parse g1 s1 oA = InitResult.ok c' os' →
      c'.tbl IPC_LOCK RingType.Required = true ∧
      c'.tbl SYS_RESOURCE RingType.Required = true ∧
      c'.tbl SYS_ADMIN RingType.Required = true) := by
  have h4 : (getKernelPerfEventParanoidValue none parse).1 > 2 := by
    norm_num [getKernelPerfEventParanoidValue]
  refine ⟨rfl, ?_, ?_, ?_⟩
  · intro hparse
    simp [getKernelPerfEventParanoidValue, hparse]
  · intro hp2
    unfold initCaps
    simp only [eq_true h4, eq_true hp2, if_true]
  · intro h
    obtain ⟨-, -, hchar⟩ := initCaps_ok_char c mb os none parse g1 s1 oA c' os' hb h
    exact ⟨(hchar IPC_LOCK RingType.Required).mpr (Or.inr ⟨rfl, Or.inl rfl⟩),
      (hchar SYS_RESOURCE RingType.Required).mpr
        (Or.inr ⟨rfl, Or.inr (Or.inl rfl)⟩),
      (hchar SYS_ADMIN RingType.Required).mpr
        (Or.inr ⟨rfl, Or.inr (Or.inr (Or.inl ⟨h4, rfl⟩))⟩)⟩

/-- Witness for C8: the unreadable-tunable initialization equals the
paranoia-3 one and produces the base Required ring. -/
theorem paranoid_fallback_witness :
    getKernelPerfEventParanoidValue none parseNone
      = (4, some GoErr.couldNotReadPerfEventParanoid) ∧
    initCaps emptyCaps false 40 osA none parseNone true true ApplyOutcome.ok
      = initCaps emptyCaps false 40 osA (some fileStr3) parseSimple true true
          ApplyOutcome.ok ∧
    (InitResult.capsOf rInitA).tbl IPC_LOCK RingType.Required = true ∧
    (InitResult.capsOf rInitA).tbl SYS_RESOURCE RingType.Required = true ∧
    (InitResult.capsOf rInitA).tbl SYS_ADMIN RingType.Required = true := by
  have H := paranoid_fallback emptyCaps 40 osA fileStr3 parseNone parseSimple
    (some fileStr3) true true ApplyOutcome.ok (InitResult.capsOf rInitA)
    (InitResult.osOf rInitA) rfl
  exact ⟨H.1, H.2.2.1 (by decide), (H.2.2.2 rfl).1, (H.2.2.2 rfl).2.1,
    (H.2.2.2 rfl).2.2⟩

theorem setList_tbl_ne (t : RingType) (c c' : Capabilities)
    (vs : List CapValue) (h : setList t c vs = some c') (w : CapValue)
    (r : RingType) (hr : r ≠ t) : c'.tbl w r = c.tbl w r := by
  apply bool_ext
  rw [setList_tbl t c c' vs h w r]
  simp [hr]

theorem unsetList_tbl_ne (t : RingType) (c c' : Capabilities)
    (vs : List CapValue) (h : unsetList t c vs = some c') (w : CapValue)
    (r : RingType) (hr : r ≠ t) : c'.tbl w r = c.tbl w r := by
  apply bool_ext
  rw [unsetList_tbl t c c' vs h w r]
  simp [hr]

theorem PrivilegedRun_caps (c : Capabilities) (os : OSState)
    (o1 o2 : ApplyOutcome) (cbRes : Option GoErr) :
    (PrivilegedRun c os o1 o2 cbRes).caps = c := by
  unfold PrivilegedRun
  split
  · rfl
  · split
    · rfl
    · split <;> rfl

theorem RequiredRun_caps (c : Capabilities) (os : OSState)
    (o1 o2 : ApplyOutcome) (cbRes : Option GoErr) :
    (RequiredRun c os o1 o2 cbRes).caps = c := by
  unfold RequiredRun
  split
  · rfl
  · split
    · rfl
    · split <;> rfl

theorem RequestedRun_tbl_ne (c : Capabilities) (os : OSState)
    (vs : List CapValue) (o1 o2 : ApplyOutcome) (cbRes : Option GoErr)
    (r : RunRes) (h : RequestedRun c os vs o1 o2 cbRes = some r)
    (w : CapValue) (rg : RingType) (hr : rg ≠ RingType.Requested) :
    r.caps.tbl w rg = c.tbl w rg := by
  unfold RequestedRun at h
  split at h
  · cases h
    rfl
  · split at h
    · cases h
    · rename_i c1 hset
      split at h
      · cases h
        exact setList_tbl_ne _ _ _ _ hset w rg hr
      · split at h
        · cases h
        · rename_i c2 hunset
          split at h
          · cases h
            exact (unsetList_tbl_ne _ _ _ _ hunset w rg hr).trans
              (setList_tbl_ne _ _ _ _ hset w rg hr)
          · cases h
            exact (unsetList_tbl_ne _ _ _ _ hunset w rg hr).trans
              (setList_tbl_ne _ _ _ _ hset w rg hr)

theorem stepOp_tbl_ne (c : Capabilities) (os : OSState) (op : Op)
    (c2 : Capabilities) (os2 : OSState) (h : stepOp c os op = some (c2, os2))
    (w : CapValue) (rg : RingType) (hr1 : rg ≠ RingType.Required)
    (hr2 : rg ≠ RingType.Requested) : c2.tbl w rg = c.tbl w rg := by
  cases op with
  | requireOp vs =>
      simp only [stepOp] at h
      rcases ho : Capabilities.Require c vs with _ | cr
      · rw [ho] at h
        cases h
      · rw [ho] at h
        cases h
        unfold Capabilities.Require at ho
        split at ho
        · cases ho
          rfl
        · exact setList_tbl_ne _ _ _ _ ho w rg hr1
  | unrequireOp vs =>
      simp only [stepOp] at h
      rcases ho : Capabilities.Unrequire c vs with _ | cr
      · rw [ho] at h
        cases h
      · rw [ho] at h
        cases h
        unfold Capabilities.Unrequire at ho
        split at ho
        · cases ho
          rfl
        · exact unsetList_tbl_ne _ _ _ _ ho w rg hr1
  | runPrivilegedOp o1 o2 cbRes =>
      simp only [stepOp] at h
      cases h
      rw [PrivilegedRun_caps]
  | runRequiredOp o1 o2 cbRes =>
      simp only [stepOp] at h
      cases h
      rw [RequiredRun_caps]
  | runRequestedOp vs o1 o2 cbRes =>
      simp only [stepOp] at h
      rcases hR : RequestedRun c os vs o1 o2 cbRes with _ | rr
      · rw [hR] at h
        cases h
      · rw [hR] at h
        cases h
        exact RequestedRun_tbl_ne _ _ _ _ _ _ _ hR w rg hr2

theorem runOps_tbl_ne (ops : List Op) : ∀ (c : Capabilities) (os : OSState)
    (c2 : Capabilities) (os2 : OSState), runOps c os ops = some (c2, os2) →
    ∀ (w : CapValue) (rg : RingType), rg ≠ RingType.Required →
    rg ≠ RingType.Requested → c2.tbl w rg = c.tbl w rg := by
  induction ops with
  | nil =>
      intro c os c2 os2 h w rg hr1 hr2
      simp only [runOps] at h
      cases h
      rfl
  | cons op rest ih =>
      intro c os c2 os2 h w rg hr1 hr2
      simp only [runOps] at h
      split at h
      · cases h
      · rename_i c' os' heq
        exact (ih c' os' c2 os2 h w rg hr1 hr2).trans
          (stepOp_tbl_ne c os op c' os' heq w rg hr1 hr2)

/-- C6: after a successful non-bypass initialization every seeded capability
belongs to the Privileged ring and not to the Unprivileged ring, and no
sequence of public operations — Require, Unrequire or any run-in-ring call —
ever changes the Privileged or Unprivileged column of the table. -/
theorem priv_unpriv_columns_invariant (c : Capabilities) (mb : Nat)
    (os : OSState) (file : Option String) (parse : String → Option Int)
    (g1 s1 : Bool) (oA : ApplyOutcome) (c' : Capabilities) (os' : OSState)
    (ops : List Op) (c2 : Capabilities) (os2 : OSState) (v : CapValue)
    (hb : c.bypass = false)
    (h : initCaps c false mb os file parse g1 s1 oA = InitResult.ok c' os')
    (hsteps : runOps c' os' ops = some (c2, os2)) (hv : v < mb) :
    c2.tbl v RingType.Privileged = true ∧
    c2.tbl v RingType.Unprivileged = false ∧
    c2.tbl v RingType.Privileged = c'.tbl v RingType.Privileged ∧
    c2.tbl v RingType.Unprivileged = c'.tbl v RingType.Unprivileged := by
  obtain ⟨-, -, hchar⟩ := initCaps_ok_char c mb os file parse g1 s1 oA c' os' hb h
  have hP := runOps_tbl_ne ops c' os' c2 os2 hsteps v RingType.Privileged
    (by decide) (by decide)
  have hU := runOps_tbl_ne ops c' os' c2 os2 hsteps v RingType.Unprivileged
    (by decide) (by decide)
  have hP0 : c'.tbl v RingType.Privileged = true :=
    (hchar v RingType.Privileged).mpr (Or.inl ⟨rfl, hv⟩)
  have hU0 : c'.tbl v RingType.Unprivileged = false := by
    cases hx : c'.tbl v RingType.Unprivileged
    · rfl
    · rcases (hchar v RingType.Unprivileged).mp hx with ⟨h1, -⟩ | ⟨h1, -⟩ <;>
        cases h1
  exact ⟨hP.trans hP0, hU.trans hU0, hP, hU⟩

/-- Witness for C6 after a concrete five-operation run on the concretely
initialized manager. -/
theorem priv_unpriv_columns_invariant_witness :
    demoStepped.1.tbl 0 RingType.Privileged = true ∧
    demoStepped.1.tbl 0 RingType.Unprivileged = false ∧
    demoStepped.1.tbl 0 RingType.Privileged
      = (InitResult.capsOf rInitA).tbl 0 RingType.Privileged ∧
    demoStepped.1.tbl 0 RingType.Unprivileged
      = (InitResult.capsOf rInitA).tbl 0 RingType.Unprivileged :=
  priv_unpriv_columns_invariant emptyCaps 40 osA none parseNone true true
    ApplyOutcome.ok (InitResult.capsOf rInitA) (InitResult.osOf rInitA)
    demoOps demoStepped.1 demoStepped.2 0 rfl rfl rfl (by decide)

end TraceeCaps

